import Mathlib

/-!
Shallow embedding of the distributed logging system (Rust sources under
src/): the common data model with secret redaction (src/common/src/lib.rs),
the ingestion rate limiter and handler (src/ingestion/src/main.rs), the
storage store/search endpoints (src/storage/src/main.rs) and the agent
batch sender (src/agent/src/lib.rs).

Modelling conventions:
* machine integers (u64) become Nat; the f64 token arithmetic of the rate
  limiter becomes exact rational arithmetic with an explicit floor for the
  final `as u64` truncation (which truncates toward zero, i.e. floors,
  since the value is clamped nonnegative);
* `std::time::Instant` becomes a rational time coordinate;
  `Instant::duration_since` saturates at zero exactly as in Rust;
* HashMap becomes an association list with `List.lookup`;
* the regex passes of `mask_secrets` are embedded as executable scanners
  over `List Char` implementing the leftmost-first, greedy-with-backtracking
  match semantics of the Rust regex crate for the four concrete patterns of
  the source (ASCII fragment); replacements are spliced over the original
  string as `Regex::replace_all` does;
* external effects (the Elasticsearch client, the HTTP send of the agent,
  the storage forward of ingestion, the spill write) are passed in as
  explicit outcome parameters, and the observable actions (status codes,
  log lines, sleeps, spill file name) are returned as data.
-/

set_option maxRecDepth 8192

/-! ## Common model (src/common/src/lib.rs) -/

inductive LogLevel where
  | Debug
  | Info
  | Warn
  | Error
  deriving DecidableEq, Repr

structure LogEntry where
  id : String
  app_name : String
  level : LogLevel
  timestamp : String
  message : String
  attributes : List (String × String)
  deriving DecidableEq, Repr

structure LogBatch where
  logs : List LogEntry
  batch_id : String
  deriving DecidableEq, Repr

structure QuotaConfig where
  app_name : String
  logs_per_second : Nat
  deriving DecidableEq, Repr

inductive LogSystemError where
  | RateLimitExceeded (app : String)
  | StorageError (detail : String)
  | NetworkError (detail : String)
  deriving DecidableEq, Repr

/-- Display implementation generated by thiserror
(`#[error("Rate limit exceeded: {0}")]` and friends). -/
def LogSystemError.display : LogSystemError → String
  | .RateLimitExceeded s => "Rate limit exceeded: " ++ s
  | .StorageError s => "Storage error: " ++ s
  | .NetworkError s => "Network error: " ++ s

/-! ## Regex scanners for mask_secrets (src/common/src/lib.rs lines 41-61)

The four patterns of the source, in source order:
  `\b\d{16}\b`                                      -> "****-****-****-****"
  `password[=:]\s*\S+`                              -> "password=***"
  `token[=:]\s*\S+`                                 -> "token=***"
  `\b[A-Za-z0-9._%+-]+@[A-Za-z0-9.-]+\.[A-Z|a-z]{2,}\b` -> "***@***.com"
Note the literal pipe in the last character class of the source.
Each scanner takes a fuel argument for structural recursion; fuel
`length + 1` is enough because every step consumes at least one character
of the remaining input. -/

/-- Word characters of the regex `\b` boundary (ASCII fragment). -/
def isWordChar (c : Char) : Bool := c.isAlphanum || c == '_'

def sideWord : Option Char → Bool
  | none => false
  | some c => isWordChar c

/-- Word boundary between two adjacent positions (string edges are
non-word sides). -/
def wordBoundary (p n : Option Char) : Bool := sideWord p != sideWord n

def cardMask : List Char := "****-****-****-****".toList

/-- Scanner for `\b\d{16}\b` with replacement `cardMask`: a maximal digit
run matches exactly when it has length 16 and non-word characters (or
string edges) on both sides. `prev` is the original character before the
current position, as `replace_all` matches against the original string. -/
def digitPass : Nat → Option Char → List Char → List Char
  | 0, _, s => s
  | _ + 1, _, [] => []
  | fuel + 1, prev, c :: rest =>
    if c.isDigit then
      let run := List.takeWhile Char.isDigit (c :: rest)
      let rest' := List.dropWhile Char.isDigit (c :: rest)
      let prev' := some (run.getLastD c)
      if !sideWord prev && run.length == 16 && !sideWord rest'.head? then
        cardMask ++ digitPass fuel prev' rest'
      else
        run ++ digitPass fuel prev' rest'
    else c :: digitPass fuel (some c) rest

/-- Scanner for `<lit>[=:]\s*\S+` with replacement `rep` (used with
lit = "password" and lit = "token"): leftmost occurrence of the literal
followed by `=` or `:`, greedy whitespace, then a nonempty greedy
non-whitespace run. -/
def kvPass (lit rep : List Char) : Nat → List Char → List Char
  | 0, s => s
  | _ + 1, [] => []
  | fuel + 1, c :: rest =>
    if lit.isPrefixOf (c :: rest) then
      match List.drop lit.length (c :: rest) with
      | d :: rest2 =>
        if d == '=' || d == ':' then
          let ns := List.dropWhile Char.isWhitespace rest2
          let word := List.takeWhile (fun x => !x.isWhitespace) ns
          if word.isEmpty then
            c :: kvPass lit rep fuel rest
          else
            rep ++ kvPass lit rep fuel (List.drop word.length ns)
        else c :: kvPass lit rep fuel rest
      | [] => c :: kvPass lit rep fuel rest
    else c :: kvPass lit rep fuel rest

/-- Class `[A-Za-z0-9._%+-]` (email local part). -/
def isLocalChar (c : Char) : Bool :=
  c.isAlphanum || c == '.' || c == '_' || c == '%' || c == '+' || c == '-'

/-- Class `[A-Za-z0-9.-]` (email domain part). -/
def isDomainChar (c : Char) : Bool := c.isAlphanum || c == '.' || c == '-'

/-- Class `[A-Z|a-z]` exactly as written in the source: the pipe is a
literal member of the class. -/
def isTldCharCode (c : Char) : Bool := c.isAlpha || c == '|'

/-- Modelled from the spec: class `[A-Za-z]` of the spec's email pattern
(the spec writes the last class without the pipe). -/
def isTldCharSpec (c : Char) : Bool := c.isAlpha

/-- Greedy `{2,}` with trailing `\b`: try the run length `k` descending
from the maximal run, accepting the first `k ≥ 2` whose end sits on a word
boundary. -/
def tldBacktrack (tail : List Char) : Nat → Option Nat
  | 0 => none
  | k + 1 =>
    if k + 1 < 2 then none
    else if wordBoundary ((tail.take (k + 1)).getLast?) ((tail.drop (k + 1)).head?) then
      some (k + 1)
    else tldBacktrack tail k

def tldLen (tcls : Char → Bool) (tail : List Char) : Option Nat :=
  tldBacktrack tail (List.takeWhile tcls tail).length

/-- Greedy `[A-Za-z0-9.-]+\.` with backtracking: try the domain length `j`
descending from the maximal domain-class run; at each `j` the next
character must be the literal dot and the tail class must then match. -/
def domainBacktrack (tcls : Char → Bool) (domRest : List Char) : Nat → Option Nat
  | 0 => none
  | j + 1 =>
    match (List.drop (j + 1) domRest).head? with
    | some '.' =>
      match tldLen tcls (List.drop (j + 2) domRest) with
      | some k => some ((j + 1) + 1 + k)
      | none => domainBacktrack tcls domRest j
    | _ => domainBacktrack tcls domRest j

/-- Email match attempt at the current position: leading `\b`, maximal
local-part run (the following character must be `@` since shorter runs
would be followed by a local-class character), then the backtracking
domain/tld match. Returns the match length. -/
def matchEmailAt (tcls : Char → Bool) (prev : Option Char) (s : List Char) : Option Nat :=
  let loc := List.takeWhile isLocalChar s
  if loc.isEmpty then none
  else if !wordBoundary prev s.head? then none
  else
    match List.drop loc.length s with
    | '@' :: domRest =>
      match domainBacktrack tcls domRest (List.takeWhile isDomainChar domRest).length with
      | some dlen => some (loc.length + 1 + dlen)
      | none => none
    | _ => none

def emailMask : List Char := "***@***.com".toList

/-- Scanner for the email pattern: leftmost-first over start positions,
splicing `emailMask` over each match and continuing after the match end. -/
def emailPass (tcls : Char → Bool) : Nat → Option Char → List Char → List Char
  | 0, _, s => s
  | _ + 1, _, [] => []
  | fuel + 1, prev, c :: rest =>
    match matchEmailAt tcls prev (c :: rest) with
    | some len =>
      emailMask ++
        emailPass tcls fuel (some (((c :: rest).take len).getLastD c)) (List.drop len (c :: rest))
    | none => c :: emailPass tcls fuel (some c) rest

/-- Message rewrite of `mask_secrets`: the four `replace_all` calls in
source order. -/
def maskMessage (m : String) : String :=
  let s0 := m.toList
  let s1 := digitPass (s0.length + 1) none s0
  let s2 := kvPass "password".toList "password=***".toList (s1.length + 1) s1
  let s3 := kvPass "token".toList "token=***".toList (s2.length + 1) s2
  let s4 := emailPass isTldCharCode (s3.length + 1) none s3
  String.mk s4

/-- Modelled from the spec: the message rewrite whose fourth pattern is the
spec's email pattern (class `[A-Za-z]{2,}`, no pipe), for comparison with
the source pattern. Only the email pass differs from `maskMessage`. -/
def specEmailOnlyPass (m : String) : String :=
  String.mk (emailPass isTldCharSpec (m.toList.length + 1) none m.toList)

/-- Substring containment test (Rust `str::contains` with a literal). -/
def containsSub (pat : List Char) : List Char → Bool
  | [] => pat.isEmpty
  | c :: rest => pat.isPrefixOf (c :: rest) || containsSub pat rest

def lowerList (s : String) : List Char := s.toList.map Char.toLower

/-- Key sensitivity test of the attribute rewrite:
`key.to_lowercase()` contains "password", "token" or "secret". -/
def isSensitiveKey (k : String) : Bool :=
  containsSub "password".toList (lowerList k) ||
  containsSub "token".toList (lowerList k) ||
  containsSub "secret".toList (lowerList k)

/-- LogEntry::mask_secrets: rewrite the message with the four regex
replacements and overwrite the value of every sensitive-keyed attribute
with "***". -/
def LogEntry.mask_secrets (e : LogEntry) : LogEntry :=
  { e with
    message := maskMessage e.message
    attributes := e.attributes.map (fun kv => if isSensitiveKey kv.1 then (kv.1, "***") else kv) }

/-! ## Ingestion: rate limiter and handler (src/ingestion/src/main.rs) -/

/-- State of `RateLimiter`: the quota table and the per-app token map
`(available, last_update)`. Time is a rational coordinate. -/
structure RateLimiterState where
  quotas : List (String × QuotaConfig)
  tokens : List (String × (Nat × ℚ))
  deriving DecidableEq

/-- Instant::duration_since, which saturates at zero. -/
def durationSince (now last : ℚ) : ℚ := max (now - last) 0

/-- Truncation of a nonnegative real quantity to u64 (`as u64`). -/
def floorNat (q : ℚ) : Nat := ⌊q⌋.toNat

/-- HashMap::insert on the association-list model. -/
def insertA (k : String) (v : Nat × ℚ) (l : List (String × (Nat × ℚ))) :
    List (String × (Nat × ℚ)) :=
  (k, v) :: l.filter (fun kv => kv.1 != k)

/-- RateLimiter::check_rate. Looks up the quota (default 1000), reads the
token bucket (default: full bucket stamped now), refills to
`min(available + elapsed * limit, limit)` truncated to u64, and either
consumes `count` tokens and persists `(new_tokens - count, now)` or
rejects without touching the stored state. -/
def check_rate (st : RateLimiterState) (app_name : String) (count : Nat) (now : ℚ) :
    Except LogSystemError RateLimiterState :=
  let limit : Nat := ((List.lookup app_name st.quotas).map QuotaConfig.logs_per_second).getD 1000
  let p : Nat × ℚ := (List.lookup app_name st.tokens).getD (limit, now)
  let elapsed : ℚ := durationSince now p.2
  let new_tokens : Nat := floorNat (min ((p.1 : ℚ) + elapsed * (limit : ℚ)) (limit : ℚ))
  if count ≤ new_tokens then
    Except.ok { st with tokens := insertA app_name (new_tokens - count, now) st.tokens }
  else
    Except.error (LogSystemError.RateLimitExceeded app_name)

/-- Modelled from the spec: the effective quota of an app (absent apps
default to 1000 logs/s). -/
def specLimit (st : RateLimiterState) (A : String) : Nat :=
  ((List.lookup A st.quotas).map QuotaConfig.logs_per_second).getD 1000

/-- Modelled from the spec: the stored bucket of an app, a full bucket
stamped now when the app has no stored token state. -/
def specBucket (st : RateLimiterState) (A : String) (now : ℚ) : Nat × ℚ :=
  (List.lookup A st.tokens).getD (specLimit st A, now)

/-- Modelled from the spec: the refill formula
`min(capacity, available + elapsed * rate)` with capacity = rate =
logs_per_second. -/
def specRefill (st : RateLimiterState) (A : String) (now : ℚ) : ℚ :=
  min (((specBucket st A now).1 : ℚ) +
        durationSince now (specBucket st A now).2 * (specLimit st A : ℚ))
      ((specLimit st A : ℚ))

/-- Outcome of the forward POST to the storage service, as observed by the
ingest handler. -/
inductive StoreOutcome where
  | success
  | httpFailure
  | connFailure
  deriving DecidableEq, Repr

/-- Observable result of the ingest handler: HTTP status, response body,
rate-limiter state after the call and the batch forwarded to storage (if
the forward was attempted). -/
structure IngestResponse where
  status : Nat
  body : String
  state : RateLimiterState
  forwarded : Option LogBatch
  deriving DecidableEq

def okBody : String := "\x7b\"status\":\"ok\"\x7d"

/-- ingest_logs after gzip and JSON decoding succeeded: quota gate on
`logs[0].app_name` with cost `logs.len()` (skipped for an empty batch),
then redaction of every entry, then the forward to storage. -/
def ingest_logs (st : RateLimiterState) (batch : LogBatch) (now : ℚ)
    (storeResp : StoreOutcome) : IngestResponse :=
  let gate : Except LogSystemError RateLimiterState :=
    match batch.logs with
    | [] => Except.ok st
    | l0 :: _ => check_rate st l0.app_name batch.logs.length now
  match gate with
  | Except.error e => ⟨429, e.display, st, none⟩
  | Except.ok st' =>
    let redacted : LogBatch := ⟨batch.logs.map LogEntry.mask_secrets, batch.batch_id⟩
    match storeResp with
    | StoreOutcome.success => ⟨200, okBody, st', some redacted⟩
    | StoreOutcome.httpFailure => ⟨500, "Storage error", st', some redacted⟩
    | StoreOutcome.connFailure => ⟨500, "Storage unavailable", st', some redacted⟩

/-- A sequence of check_rate calls `(timestamp, record count)` for one
app, threading the state and summing the accepted record counts. -/
def runCalls (app : String) : RateLimiterState → List (ℚ × Nat) → RateLimiterState × Nat
  | st, [] => (st, 0)
  | st, c :: rest =>
    match check_rate st app c.2 c.1 with
    | Except.ok st' =>
      let r := runCalls app st' rest
      (r.1, c.2 + r.2)
    | Except.error _ => runCalls app st rest

/-- Token budget of an app at time `t`: the refilled (real-valued) bucket
content, `R` for an absent entry. Used to bound accepted counts. -/
def bucketBudget (st : RateLimiterState) (app : String) (R : ℚ) (t : ℚ) : ℚ :=
  match List.lookup app st.tokens with
  | some av => min ((av.1 : ℚ) + R * durationSince t av.2) R
  | none => R

/-! ## Storage (src/storage/src/main.rs) -/

def HOT_INDEX : String := "logs-hot"

def COLD_INDEX : String := "logs-cold"

/-- Status of the bulk insert as returned by the Elasticsearch client
(external collaborator, passed in as an outcome). -/
inductive BulkOutcome where
  | ok2xx
  | httpError
  | transportError
  deriving DecidableEq, Repr

/-- The log line emitted by LogStorage::store for each outcome arm. -/
inductive StoreLogLine where
  | stored (batch_id : String) (n : Nat)
  | storeFailed
  | engineError
  deriving DecidableEq, Repr

/-- LogStorage::store: bulk-insert the batch and log the outcome; no error
is returned to the caller in any arm. -/
def storageStore (batch : LogBatch) (engine : BulkOutcome) : StoreLogLine :=
  match engine with
  | BulkOutcome.ok2xx => StoreLogLine.stored batch.batch_id batch.logs.length
  | BulkOutcome.httpError => StoreLogLine.storeFailed
  | BulkOutcome.transportError => StoreLogLine.engineError

/-- store_logs handler: awaits LogStorage::store and returns StatusCode::OK
unconditionally. -/
def store_logs (batch : LogBatch) (engine : BulkOutcome) : Nat :=
  let _ := storageStore batch engine
  200

structure SearchQuery where
  app_name : Option String
  level : Option LogLevel
  fromTs : Option String
  toTs : Option String
  attributes : Option (List (String × String))
  limit : Option Nat
  deriving DecidableEq, Repr

/-- Debug formatting of LogLevel (`format!("{:?}", level)`). -/
def levelName : LogLevel → String
  | LogLevel.Debug => "Debug"
  | LogLevel.Info => "Info"
  | LogLevel.Warn => "Warn"
  | LogLevel.Error => "Error"

inductive MustClause where
  | termAppName (v : String)
  | termLevel (v : String)
  | rangeTimestamp (gte lte : Option String)
  | termAttribute (k v : String)
  | matchAll
  deriving DecidableEq, Repr

/-- The search request sent to the engine: bool/must clause list, size,
sort and target indices. -/
structure SearchBody where
  must : List MustClause
  size : Nat
  sortTimestampDesc : Bool
  indices : List String
  deriving DecidableEq, Repr

/-- LogStorage::search, request-building part: push a term clause for
app_name, a term clause for the Debug-formatted level, one range clause
when from or to is present, and a term clause per attribute entry; an
empty clause list becomes match_all; size is `limit.unwrap_or(100)`; sort
is timestamp descending; the search targets both indices. -/
def buildSearchBody (q : SearchQuery) : SearchBody :=
  let c1 : List MustClause :=
    match q.app_name with
    | some a => [MustClause.termAppName a]
    | none => []
  let c2 : List MustClause :=
    match q.level with
    | some lv => [MustClause.termLevel (levelName lv)]
    | none => []
  let c3 : List MustClause :=
    if q.fromTs.isSome || q.toTs.isSome then [MustClause.rangeTimestamp q.fromTs q.toTs] else []
  let c4 : List MustClause :=
    match q.attributes with
    | some l => l.map (fun kv => MustClause.termAttribute kv.1 kv.2)
    | none => []
  let must := c1 ++ c2 ++ c3 ++ c4
  { must := if must.isEmpty then [MustClause.matchAll] else must
    size := q.limit.getD 100
    sortTimestampDesc := true
    indices := [HOT_INDEX, COLD_INDEX] }

/-- Modelled from the spec: the boolean AND of exactly the clauses of the
filters present (term on app_name, term on the capitalized level, one
gte/lte range for from/to, one term per attribute entry), match_all when
no filter is present, both indices, timestamp-descending sort, size capped
at limit with default 100. -/
def specSearchBody (q : SearchQuery) : SearchBody :=
  let clauses : List MustClause :=
    (q.app_name.map MustClause.termAppName).toList ++
    (q.level.map (fun lv => MustClause.termLevel (levelName lv))).toList ++
    (if q.fromTs = none ∧ q.toTs = none then []
     else [MustClause.rangeTimestamp q.fromTs q.toTs]) ++
    ((q.attributes.getD []).map (fun kv => MustClause.termAttribute kv.1 kv.2))
  { must := if clauses = [] then [MustClause.matchAll] else clauses
    size := q.limit.getD 100
    sortTimestampDesc := true
    indices := [HOT_INDEX, COLD_INDEX] }

/-- Minimal serde_json::Value model for hit sources. Indexing a missing
field yields null, as serde_json does. -/
inductive JVal where
  | null
  | str (s : String)
  | obj (fields : List (String × JVal))

def JVal.get : JVal → String → JVal
  | JVal.obj fields, k => (List.lookup k fields).getD JVal.null
  | _, _ => JVal.null

def JVal.asStr : JVal → Option String
  | JVal.str s => some s
  | _ => none

/-- The level-string match arm of parse_log_entry. -/
def levelOfString : String → Option LogLevel
  | "Debug" => some LogLevel.Debug
  | "Info" => some LogLevel.Info
  | "Warn" => some LogLevel.Warn
  | "Error" => some LogLevel.Error
  | _ => none

def digitsVal (cs : List Char) : Nat :=
  cs.foldl (fun a c => a * 10 + (c.toNat - '0'.toNat)) 0

def allDigits (cs : List Char) : Bool := cs.all Char.isDigit

/-- Offset tail of an RFC 3339 timestamp: `Z`, `z` or `±hh:mm`. -/
def validOffset : List Char → Bool
  | ['Z'] => true
  | ['z'] => true
  | [sg, h1, h2, ':', m1, m2] =>
    (sg == '+' || sg == '-') && allDigits [h1, h2, m1, m2] &&
      digitsVal [h1, h2] ≤ 23 && digitsVal [m1, m2] ≤ 59
  | _ => false

/-- Optional fractional seconds followed by the offset. -/
def validFracOffset : List Char → Bool
  | '.' :: rest =>
    let ds := List.takeWhile Char.isDigit rest
    !ds.isEmpty && validOffset (List.drop ds.length rest)
  | rest => validOffset rest

/-- Modelled from the spec: chrono's `DateTime::parse_from_rfc3339`
(external crate; only its success/failure is observable here). Validates
`YYYY-MM-DD\[Tt \]hh:mm:ss[.frac](Z|±hh:mm)` with field ranges. -/
def rfc3339Valid (cs : List Char) : Bool :=
  match cs with
  | y1 :: y2 :: y3 :: y4 :: '-' :: m1 :: m2 :: '-' :: d1 :: d2 ::
      t :: h1 :: h2 :: ':' :: mi1 :: mi2 :: ':' :: s1 :: s2 :: rest =>
    allDigits [y1, y2, y3, y4, m1, m2, d1, d2, h1, h2, mi1, mi2, s1, s2] &&
      (t == 'T' || t == 't' || t == ' ') &&
      1 ≤ digitsVal [m1, m2] && digitsVal [m1, m2] ≤ 12 &&
      1 ≤ digitsVal [d1, d2] && digitsVal [d1, d2] ≤ 31 &&
      digitsVal [h1, h2] ≤ 23 && digitsVal [mi1, mi2] ≤ 59 &&
      digitsVal [s1, s2] ≤ 60 &&
      validFracOffset rest
  | _ => false

/-- Modelled from the spec: parse_from_rfc3339 then with_timezone(&Utc);
the timestamp is carried as its string rendering, so a successful parse
returns the string. -/
def parseRFC3339 (s : String) : Option String :=
  if rfc3339Valid s.toList then some s else none

/-- The attributes extraction of parse_log_entry: object entries whose
value is a string; anything else yields the empty map. -/
def parseAttrs : JVal → List (String × String)
  | JVal.obj fields => fields.filterMap (fun kv => kv.2.asStr.map (fun s => (kv.1, s)))
  | _ => []

/-- LogStorage::parse_log_entry: None (skip the hit) when the level string
is not one of the four recognized names, the timestamp does not parse as
RFC 3339, or a required string field is missing. -/
def parse_log_entry (source : JVal) : Option LogEntry := do
  let levelStr ← (source.get "level").asStr
  let level ← levelOfString levelStr
  let tsStr ← (source.get "timestamp").asStr
  let timestamp ← parseRFC3339 tsStr
  let id ← (source.get "id").asStr
  let app ← (source.get "app_name").asStr
  let msg ← (source.get "message").asStr
  pure ⟨id, app, level, timestamp, msg, parseAttrs (source.get "attributes")⟩

/-- The hit-parsing stage of LogStorage::search: filter_map over the hits. -/
def searchResults (hits : List JVal) : List LogEntry :=
  hits.filterMap parse_log_entry

/-! ## Agent (src/agent/src/lib.rs) -/

/-- Outcome of one send_with_compression attempt: 2xx, or anything else
(non-2xx status, connection error). -/
inductive AttemptResult where
  | ok2xx
  | failed
  deriving DecidableEq, Repr

/-- Observable trace of send_batch: attempts made, backoff sleeps in
seconds, the spill (file name and batch) if one was attempted, and whether
the batch was acknowledged. -/
structure SendTrace where
  attempts : Nat
  sleeps : List Nat
  spill : Option (String × LogBatch)
  delivered : Bool
  deriving DecidableEq, Repr

/-- LogAgent::save_to_disk: the file name and pretty-printed batch written
as a best effort. -/
def save_to_disk (batch : LogBatch) : String × LogBatch :=
  ("failed_batch_" ++ batch.batch_id ++ ".json", batch)

/-- The `for attempt in 1..=3` loop of send_batch: return on the first
2xx; otherwise sleep 2^attempt seconds when attempt < 3, and spill to disk
after the final failure. -/
def sendAttempts (batch : LogBatch) (result : Nat → AttemptResult) : List Nat → SendTrace
  | [] => ⟨0, [], none, false⟩
  | a :: rest =>
    match result a with
    | AttemptResult.ok2xx => ⟨1, [], none, true⟩
    | AttemptResult.failed =>
      if a < 3 then
        let t := sendAttempts batch result rest
        ⟨t.attempts + 1, 2 ^ a :: t.sleeps, t.spill, t.delivered⟩
      else
        ⟨1, [], some (save_to_disk batch), false⟩

/-- LogAgent::send_batch: early return on an empty record list, otherwise
run the three attempts. The result of the spill write is discarded
(`.ok()`), so the trace does not depend on `diskOk`. -/
def send_batch (logs : List LogEntry) (batch_id : String) (result : Nat → AttemptResult)
    (diskOk : Bool) : SendTrace :=
  if logs.isEmpty then ⟨0, [], none, false⟩
  else
    let _ := diskOk
    sendAttempts ⟨logs, batch_id⟩ result [1, 2, 3]

/-! ## Theorems: redaction -/

/-- Sample entries used by concrete witnesses and counterexamples. -/
def idemEntry : LogEntry :=
  ⟨"log-1", "app-1", LogLevel.Info, "2024-01-01T00:00:00Z", "a@b.co@c.dd", []⟩

def sampleEntry : LogEntry :=
  ⟨"log-2", "user-service", LogLevel.Info, "2024-01-01T00:00:00Z", "hello",
    [("user_id", "123")]⟩

/-- Claim C4 (counterexample): redaction is not idempotent. On the message
"a@b.co@c.dd" the first email replacement produces "***@***.com@c.dd", in
which a second application matches "com@c.dd" and rewrites the message
again. -/
theorem claim_C4_counterexample :
    idemEntry.mask_secrets.mask_secrets ≠ idemEntry.mask_secrets := by
  decide

/-- Claim C4 (amended): applying mask_secrets twice agrees with applying
it once on every field except possibly the message: id, app_name, level,
timestamp and the attributes are idempotent under redaction. -/
theorem claim_C4_amended (e : LogEntry) :
    e.mask_secrets.mask_secrets.id = e.mask_secrets.id ∧
    e.mask_secrets.mask_secrets.app_name = e.mask_secrets.app_name ∧
    e.mask_secrets.mask_secrets.level = e.mask_secrets.level ∧
    e.mask_secrets.mask_secrets.timestamp = e.mask_secrets.timestamp ∧
    e.mask_secrets.mask_secrets.attributes = e.mask_secrets.attributes := by
  refine ⟨rfl, rfl, rfl, rfl, ?_⟩
  simp only [LogEntry.mask_secrets, List.map_map]
  apply List.map_congr_left
  intro kv _
  by_cases h : isSensitiveKey kv.1 <;> simp [h, Function.comp]

/-- Claim C5: the source's fourth pattern writes its last character class
as `[A-Z|a-z]`, so the literal pipe is a class member; the claim's pattern
`[A-Za-z]{2,}` is not the one the code applies. On "a@b.c|d" the code
redacts (the class accepts "c|d" as a tld run) while the claimed pattern
has no match. The claim's concrete scenario-3 example does hold. -/
theorem claim_C5_email_divergence :
    maskMessage "card 1234567812345678 and test@x.io, password=hunter2" =
      "card ****-****-****-**** and ***@***.com, password=***" ∧
    maskMessage "a@b.c|d" = "***@***.com" ∧
    specEmailOnlyPass "a@b.c|d" = "a@b.c|d" := by
  refine ⟨by decide, by decide, by decide⟩

/-- Claim C6: mask_secrets leaves id, app_name, level and timestamp
unchanged, preserves the attribute keys verbatim, and leaves the value of
every attribute with a non-sensitive key unchanged. -/
theorem claim_C6 (e : LogEntry) :
    e.mask_secrets.id = e.id ∧
    e.mask_secrets.app_name = e.app_name ∧
    e.mask_secrets.level = e.level ∧
    e.mask_secrets.timestamp = e.timestamp ∧
    e.mask_secrets.attributes.map Prod.fst = e.attributes.map Prod.fst ∧
    ∀ k v, (k, v) ∈ e.attributes → isSensitiveKey k = false →
      (k, v) ∈ e.mask_secrets.attributes := by
  refine ⟨rfl, rfl, rfl, rfl, ?_, ?_⟩
  · simp only [LogEntry.mask_secrets, List.map_map]
    apply List.map_congr_left
    intro kv _
    by_cases h : isSensitiveKey kv.1 <;> simp [h, Function.comp]
  · intro k v hmem hns
    simp only [LogEntry.mask_secrets]
    have hfix : (fun kv : String × String =>
        if isSensitiveKey kv.1 then (kv.1, "***") else kv) (k, v) = (k, v) := by
      simp [hns]
    exact hfix ▸ List.mem_map_of_mem _ hmem

/-- Claim C6 witness at a concrete entry with a non-sensitive key. -/
theorem claim_C6_witness :
    ("user_id", "123") ∈ sampleEntry.mask_secrets.attributes :=
  (claim_C6 sampleEntry).2.2.2.2.2 "user_id" "123" (by decide) (by decide)

/-! ## Theorems: rate limiter -/

theorem durationSince_nonneg (t l : ℚ) : 0 ≤ durationSince t l :=
  le_max_right _ _

theorem durationSince_self (t : ℚ) : durationSince t t = 0 := by
  simp [durationSince]

theorem floorNat_le (q : ℚ) (h : 0 ≤ q) : (floorNat q : ℚ) ≤ q := by
  unfold floorNat
  have h0 : (0 : ℤ) ≤ ⌊q⌋ := Int.floor_nonneg.mpr h
  calc ((⌊q⌋.toNat : ℤ) : ℚ) = ((⌊q⌋ : ℤ) : ℚ) := by rw [Int.toNat_of_nonneg h0]
    _ ≤ q := Int.floor_le q

theorem le_floorNat_iff (N : Nat) (q : ℚ) (h : 0 ≤ q) :
    N ≤ floorNat q ↔ (N : ℚ) ≤ q := by
  unfold floorNat
  have h0 : (0 : ℤ) ≤ ⌊q⌋ := Int.floor_nonneg.mpr h
  rw [Int.le_toNat h0, Int.le_floor]
  push_cast
  rfl

theorem specRefill_nonneg (st : RateLimiterState) (A : String) (now : ℚ) :
    0 ≤ specRefill st A now := by
  unfold specRefill
  refine le_min ?_ (by positivity)
  have h1 : (0 : ℚ) ≤ ((specBucket st A now).1 : ℚ) := by positivity
  have h2 : (0 : ℚ) ≤ durationSince now (specBucket st A now).2 * (specLimit st A : ℚ) :=
    mul_nonneg (durationSince_nonneg _ _) (by positivity)
  linarith

/-- check_rate, written with the spec-side refill formula: the two compute
the same number, so check_rate is the refill test followed by the insert. -/
theorem check_rate_eq (st : RateLimiterState) (A : String) (N : Nat) (now : ℚ) :
    check_rate st A N now =
      if N ≤ floorNat (specRefill st A now) then
        Except.ok { st with tokens := insertA A (floorNat (specRefill st A now) - N, now) st.tokens }
      else Except.error (LogSystemError.RateLimitExceeded A) := rfl

theorem lookup_filter_ne (k k' : String) (h : k' ≠ k) (l : List (String × (Nat × ℚ))) :
    List.lookup k' (l.filter (fun kv => kv.1 != k)) = List.lookup k' l := by
  induction l with
  | nil => rfl
  | cons a t ih =>
    obtain ⟨a1, a2⟩ := a
    by_cases ha : a1 = k
    · subst ha
      have hk' : (k' == a1) = false := beq_eq_false_iff_ne.mpr h
      simp [List.filter_cons, List.lookup, hk', ih]
    · have hne : (a1 != k) = true := bne_iff_ne.mpr ha
      by_cases hk : k' = a1
      · subst hk
        simp [List.filter_cons, hne, List.lookup]
      · have hk2 : (k' == a1) = false := beq_eq_false_iff_ne.mpr hk
        simp [List.filter_cons, hne, List.lookup, hk2, ih]

theorem lookup_insertA_self (k : String) (v : Nat × ℚ) (l : List (String × (Nat × ℚ))) :
    List.lookup k (insertA k v l) = some v := by
  simp [insertA, List.lookup]

theorem lookup_insertA_ne (k k' : String) (v : Nat × ℚ) (l : List (String × (Nat × ℚ)))
    (h : k' ≠ k) :
    List.lookup k' (insertA k v l) = List.lookup k' l := by
  have hk2 : (k' == k) = false := beq_eq_false_iff_ne.mpr h
  simp [insertA, List.lookup, hk2, lookup_filter_ne k k' h l]

/-- Claim C1: check_rate uses the app's quota with default 1000 logs/s,
treats a missing token entry as a full bucket stamped now, refills to
min(capacity, available + elapsed * rate) with capacity = rate =
logs_per_second, accepts exactly when the refilled value is at least the
record count N, and then persists (refilled - N, now) for the app, leaving
the quota table and every other app's bucket unchanged. -/
theorem claim_C1 (st : RateLimiterState) (A : String) (N : Nat) (now : ℚ) :
    (List.lookup A st.quotas = none → specLimit st A = 1000) ∧
    (List.lookup A st.tokens = none → specBucket st A now = (specLimit st A, now)) ∧
    ((∃ st', check_rate st A N now = Except.ok st') ↔ (N : ℚ) ≤ specRefill st A now) ∧
    (∀ st', check_rate st A N now = Except.ok st' →
      st'.quotas = st.quotas ∧
      List.lookup A st'.tokens = some (floorNat (specRefill st A now) - N, now) ∧
      ∀ B, B ≠ A → List.lookup B st'.tokens = List.lookup B st.tokens) := by
  refine ⟨fun h => by simp [specLimit, h], fun h => by simp [specBucket, h], ?_, ?_⟩
  · constructor
    · rintro ⟨st', hok⟩
      rw [check_rate_eq] at hok
      by_cases hc : N ≤ floorNat (specRefill st A now)
      · exact (le_floorNat_iff N _ (specRefill_nonneg st A now)).mp hc
      · rw [if_neg hc] at hok
        cases hok
    · intro hle
      rw [check_rate_eq,
        if_pos ((le_floorNat_iff N _ (specRefill_nonneg st A now)).mpr hle)]
      exact ⟨_, rfl⟩
  · intro st' hok
    rw [check_rate_eq] at hok
    by_cases hc : N ≤ floorNat (specRefill st A now)
    · rw [if_pos hc] at hok
      cases hok
      exact ⟨rfl, lookup_insertA_self A _ st.tokens,
        fun B hB => lookup_insertA_ne A B _ st.tokens hB⟩
    · rw [if_neg hc] at hok
      cases hok

def rlState1 : RateLimiterState :=
  ⟨[("user-service", ⟨"user-service", 5⟩)], []⟩

/-- Claim C1 witness: with quota 5 and a fresh (full) bucket, a request of
3 records at time 0 is accepted. -/
theorem claim_C1_witness :
    ∃ st', check_rate rlState1 "user-service" 3 0 = Except.ok st' :=
  ((claim_C1 rlState1 "user-service" 3 0).2.2.1).mpr (by
    norm_num [specRefill, specBucket, specLimit, rlState1, durationSince, List.lookup])

/-- Claim C2: when the refilled value is strictly below the record count,
check_rate returns RateLimitExceeded without touching the stored state,
and the ingest handler answers 429 with the error message as body, without
forwarding the batch. -/
theorem claim_C2 (st : RateLimiterState) (batch : LogBatch) (now : ℚ) (resp : StoreOutcome)
    (l0 : LogEntry) (ls : List LogEntry) (hlogs : batch.logs = l0 :: ls)
    (hlt : specRefill st l0.app_name now < (batch.logs.length : ℚ)) :
    check_rate st l0.app_name batch.logs.length now =
      Except.error (LogSystemError.RateLimitExceeded l0.app_name) ∧
    ingest_logs st batch now resp =
      ⟨429, "Rate limit exceeded: " ++ l0.app_name, st, none⟩ := by
  obtain ⟨logs, bid⟩ := batch
  simp only at hlogs hlt
  subst hlogs
  have hrej : ¬ ((l0 :: ls).length ≤ floorNat (specRefill st l0.app_name now)) := by
    intro hc
    exact absurd ((le_floorNat_iff _ _ (specRefill_nonneg st l0.app_name now)).mp hc)
      (not_le.mpr hlt)
  have hcr : check_rate st l0.app_name (l0 :: ls).length now =
      Except.error (LogSystemError.RateLimitExceeded l0.app_name) := by
    rw [check_rate_eq, if_neg hrej]
  refine ⟨hcr, ?_⟩
  simp only [List.length_cons] at hcr
  simp [ingest_logs, hcr, LogSystemError.display]

def onePerSecState : RateLimiterState :=
  ⟨[("payment-service", ⟨"payment-service", 1⟩)], []⟩

def paymentEntry : LogEntry :=
  ⟨"log-3", "payment-service", LogLevel.Warn, "2024-01-01T00:00:00Z", "pay", []⟩

def twoLogBatch : LogBatch := ⟨[paymentEntry, paymentEntry], "batch-2"⟩

/-- Claim C2 witness: two records against a quota of 1 log/s with a fresh
bucket are rejected with a 429 and an unchanged limiter state. -/
theorem claim_C2_witness :
    ingest_logs onePerSecState twoLogBatch 0 StoreOutcome.success =
      ⟨429, "Rate limit exceeded: " ++ "payment-service", onePerSecState, none⟩ :=
  (claim_C2 onePerSecState twoLogBatch 0 StoreOutcome.success paymentEntry [paymentEntry]
    rfl (by
      norm_num [specRefill, specBucket, specLimit, onePerSecState, twoLogBatch,
        paymentEntry, durationSince, List.lookup])).2

/-- Claim C10: a decoded batch with an empty record list never consults
the rate limiter (the limiter state is returned unchanged and a 429 is
impossible), is still forwarded to storage, and the handler returns 200
when the forward succeeds. -/
theorem claim_C10 (st : RateLimiterState) (batch : LogBatch) (now : ℚ) (resp : StoreOutcome)
    (hempty : batch.logs = []) :
    (ingest_logs st batch now resp).state = st ∧
    (ingest_logs st batch now resp).status ≠ 429 ∧
    (ingest_logs st batch now resp).forwarded = some ⟨[], batch.batch_id⟩ ∧
    (resp = StoreOutcome.success →
      ingest_logs st batch now resp = ⟨200, okBody, st, some ⟨[], batch.batch_id⟩⟩) := by
  obtain ⟨logs, bid⟩ := batch
  simp only at hempty
  subst hempty
  cases resp <;> simp [ingest_logs]

/-- Claim C10 witness: a concrete empty batch is forwarded and answered
with 200. -/
theorem claim_C10_witness :
    ingest_logs rlState1 ⟨[], "batch-0"⟩ 0 StoreOutcome.success =
      ⟨200, okBody, rlState1, some ⟨[], "batch-0"⟩⟩ :=
  (claim_C10 rlState1 ⟨[], "batch-0"⟩ 0 StoreOutcome.success rfl).2.2.2 rfl

theorem bucketBudget_nonneg (st : RateLimiterState) (A : String) (R t : ℚ) (hR : 0 ≤ R) :
    0 ≤ bucketBudget st A R t := by
  unfold bucketBudget
  cases h : List.lookup A st.tokens with
  | none => exact hR
  | some av =>
    refine le_min ?_ hR
    have h1 : (0 : ℚ) ≤ (av.1 : ℚ) := by positivity
    have h2 : (0 : ℚ) ≤ R * durationSince t av.2 :=
      mul_nonneg hR (durationSince_nonneg _ _)
    linarith

theorem bucketBudget_le (st : RateLimiterState) (A : String) (R t : ℚ) :
    bucketBudget st A R t ≤ R := by
  unfold bucketBudget
  cases h : List.lookup A st.tokens with
  | none => exact le_refl R
  | some av => exact min_le_right _ _

theorem bucketBudget_shift (st : RateLimiterState) (A : String) (R s t : ℚ)
    (hR : 0 ≤ R) (hst : s ≤ t) :
    bucketBudget st A R t ≤ bucketBudget st A R s + R * (t - s) := by
  have hRts : 0 ≤ R * (t - s) := mul_nonneg hR (sub_nonneg.mpr hst)
  unfold bucketBudget
  cases h : List.lookup A st.tokens with
  | none => linarith
  | some av =>
    have hd : durationSince t av.2 ≤ durationSince s av.2 + (t - s) := by
      unfold durationSince
      apply max_le
      · have := le_max_left (s - av.2) (0 : ℚ)
        linarith
      · have := le_max_right (s - av.2) (0 : ℚ)
        linarith
    have hx : (av.1 : ℚ) + R * durationSince t av.2 ≤
        ((av.1 : ℚ) + R * durationSince s av.2) + R * (t - s) := by
      have := mul_le_mul_of_nonneg_left hd hR
      nlinarith
    show min ((av.1 : ℚ) + R * durationSince t av.2) R ≤
      min ((av.1 : ℚ) + R * durationSince s av.2) R + R * (t - s)
    rcases le_total ((av.1 : ℚ) + R * durationSince s av.2) R with hy | hy
    · rw [min_eq_left hy]
      calc min ((av.1 : ℚ) + R * durationSince t av.2) R
          ≤ (av.1 : ℚ) + R * durationSince t av.2 := min_le_left _ _
        _ ≤ ((av.1 : ℚ) + R * durationSince s av.2) + R * (t - s) := hx
    · rw [min_eq_right hy]
      calc min ((av.1 : ℚ) + R * durationSince t av.2) R
          ≤ R := min_le_right _ _
        _ ≤ R + R * (t - s) := by linarith

/-- With the quota of the app in view, the refill amount of check_rate is
the bucket budget at the call time. -/
theorem specRefill_eq_budget (st : RateLimiterState) (A : String) (qc : QuotaConfig)
    (now : ℚ) (hq : List.lookup A st.quotas = some qc) :
    specRefill st A now = bucketBudget st A (qc.logs_per_second : ℚ) now := by
  unfold specRefill specBucket specLimit bucketBudget
  rw [hq]
  cases h : List.lookup A st.tokens with
  | some av => simp [h, mul_comm]
  | none => simp [h, durationSince_self]

/-- Key induction for claim C3: over any call sequence with nondecreasing
timestamps inside `[s, e]`, the accepted total is bounded by the budget at
`s` plus the refill over the window. -/
theorem runCalls_budget_le (A : String) (qc : QuotaConfig) :
    ∀ (calls : List (ℚ × Nat)) (st : RateLimiterState) (s e : ℚ),
      List.lookup A st.quotas = some qc →
      s ≤ e →
      (∀ c ∈ calls, s ≤ c.1 ∧ c.1 ≤ e) →
      calls.Pairwise (fun a b => a.1 ≤ b.1) →
      ((runCalls A st calls).2 : ℚ) ≤
        bucketBudget st A (qc.logs_per_second : ℚ) s + (qc.logs_per_second : ℚ) * (e - s) := by
  intro calls
  induction calls with
  | nil =>
    intro st s e hq hse _ _
    have h1 : 0 ≤ bucketBudget st A (qc.logs_per_second : ℚ) s :=
      bucketBudget_nonneg st A _ s (by positivity)
    have h2 : (0 : ℚ) ≤ (qc.logs_per_second : ℚ) * (e - s) :=
      mul_nonneg (by positivity) (sub_nonneg.mpr hse)
    simp [runCalls]
    linarith
  | cons c rest ih =>
    intro st s e hq hse hwin hpw
    obtain ⟨t, n⟩ := c
    obtain ⟨hst, hte⟩ := hwin (t, n) (List.mem_cons_self _ _)
    have hrest_lo : ∀ d ∈ rest, t ≤ d.1 := (List.pairwise_cons.mp hpw).1
    have hpw' := (List.pairwise_cons.mp hpw).2
    have hwin' : ∀ d ∈ rest, t ≤ d.1 ∧ d.1 ≤ e := fun d hd =>
      ⟨hrest_lo d hd, (hwin d (List.mem_cons_of_mem _ hd)).2⟩
    have hR0 : (0 : ℚ) ≤ (qc.logs_per_second : ℚ) := by positivity
    have hshift := bucketBudget_shift st A (qc.logs_per_second : ℚ) s t hR0 hst
    rcases hcr : check_rate st A n t with e' | st'
    · have hrun : runCalls A st ((t, n) :: rest) = runCalls A st rest := by
        simp [runCalls, hcr]
      rw [hrun]
      have hih := ih st t e hq hte hwin' hpw'
      calc ((runCalls A st rest).2 : ℚ)
          ≤ bucketBudget st A (qc.logs_per_second : ℚ) t +
              (qc.logs_per_second : ℚ) * (e - t) := hih
        _ ≤ (bucketBudget st A (qc.logs_per_second : ℚ) s +
              (qc.logs_per_second : ℚ) * (t - s)) +
              (qc.logs_per_second : ℚ) * (e - t) := by linarith
        _ = bucketBudget st A (qc.logs_per_second : ℚ) s +
              (qc.logs_per_second : ℚ) * (e - s) := by ring
    · rw [check_rate_eq] at hcr
      by_cases hc : n ≤ floorNat (specRefill st A t)
      · rw [if_pos hc] at hcr
        injection hcr with hst'
        subst hst'
        have hrun : (runCalls A st ((t, n) :: rest)).2 =
            n + (runCalls A
              { st with tokens := insertA A (floorNat (specRefill st A t) - n, t) st.tokens }
              rest).2 := by
          rw [runCalls, check_rate_eq, if_pos hc]
        rw [hrun]
        have hq' : List.lookup A
            ({ st with tokens := insertA A (floorNat (specRefill st A t) - n, t) st.tokens} :
              RateLimiterState).quotas = some qc := hq
        have hih := ih _ t e hq' hte hwin' hpw'
        have hFle : (floorNat (specRefill st A t) : ℚ) ≤
            bucketBudget st A (qc.logs_per_second : ℚ) t := by
          rw [← specRefill_eq_budget st A qc t hq]
          exact floorNat_le _ (specRefill_nonneg st A t)
        have hFn : ((floorNat (specRefill st A t) - n : ℕ) : ℚ) =
            (floorNat (specRefill st A t) : ℚ) - (n : ℚ) := by
          push_cast [hc]
          ring
        have hlhs : bucketBudget
            { st with tokens := insertA A (floorNat (specRefill st A t) - n, t) st.tokens }
            A (qc.logs_per_second : ℚ) t =
            min ((floorNat (specRefill st A t) - n : ℕ) : ℚ) (qc.logs_per_second : ℚ) := by
          unfold bucketBudget
          rw [lookup_insertA_self]
          show min (((floorNat (specRefill st A t) - n : ℕ) : ℚ) +
            (qc.logs_per_second : ℚ) * durationSince t t) (qc.logs_per_second : ℚ) = _
          rw [durationSince_self, mul_zero, add_zero]
        have hbudget' : bucketBudget
            { st with tokens := insertA A (floorNat (specRefill st A t) - n, t) st.tokens }
            A (qc.logs_per_second : ℚ) t ≤
            bucketBudget st A (qc.logs_per_second : ℚ) t - n := by
          rw [hlhs]
          calc min ((floorNat (specRefill st A t) - n : ℕ) : ℚ) (qc.logs_per_second : ℚ)
              ≤ ((floorNat (specRefill st A t) - n : ℕ) : ℚ) := min_le_left _ _
            _ = (floorNat (specRefill st A t) : ℚ) - (n : ℚ) := hFn
            _ ≤ bucketBudget st A (qc.logs_per_second : ℚ) t - n := by linarith
        push_cast
        calc (n : ℚ) + ((runCalls A
              { st with tokens := insertA A (floorNat (specRefill st A t) - n, t) st.tokens }
              rest).2 : ℚ)
            ≤ (n : ℚ) + (bucketBudget
                { st with tokens := insertA A (floorNat (specRefill st A t) - n, t) st.tokens }
                A (qc.logs_per_second : ℚ) t +
                (qc.logs_per_second : ℚ) * (e - t)) := by linarith
          _ ≤ bucketBudget st A (qc.logs_per_second : ℚ) t +
                (qc.logs_per_second : ℚ) * (e - t) := by linarith
          _ ≤ (bucketBudget st A (qc.logs_per_second : ℚ) s +
                (qc.logs_per_second : ℚ) * (t - s)) +
                (qc.logs_per_second : ℚ) * (e - t) := by linarith
          _ = bucketBudget st A (qc.logs_per_second : ℚ) s +
                (qc.logs_per_second : ℚ) * (e - s) := by ring
      · rw [if_neg hc] at hcr
        cases hcr

/-- Claim C3: for an app with configured rate R, any sequence of
check_rate calls with nondecreasing timestamps inside a one-second window
accepts at most 2R records in total (initial full bucket plus one
second's refill), from any starting limiter state. -/
theorem claim_C3 (st : RateLimiterState) (A : String) (qc : QuotaConfig)
    (calls : List (ℚ × Nat)) (t0 : ℚ)
    (hq : List.lookup A st.quotas = some qc)
    (hpw : calls.Pairwise (fun a b => a.1 ≤ b.1))
    (hwin : ∀ c ∈ calls, t0 ≤ c.1 ∧ c.1 ≤ t0 + 1) :
    (runCalls A st calls).2 ≤ 2 * qc.logs_per_second := by
  have h := runCalls_budget_le A qc calls st t0 (t0 + 1) hq (by linarith) hwin hpw
  have hb : bucketBudget st A (qc.logs_per_second : ℚ) t0 ≤ (qc.logs_per_second : ℚ) :=
    bucketBudget_le st A _ t0
  rw [show (t0 + 1 - t0 : ℚ) = 1 by ring, mul_one] at h
  have hcast : ((runCalls A st calls).2 : ℚ) ≤ 2 * (qc.logs_per_second : ℚ) := by linarith
  exact_mod_cast hcast

def twoPerSecState : RateLimiterState := ⟨[("app-a", ⟨"app-a", 2⟩)], []⟩

def threeCalls : List (ℚ × Nat) := [(0, 1), (0, 1), (0, 1)]

/-- Claim C3 witness: three one-record calls at time 0 against rate 2
accept at most 4 records. -/
theorem claim_C3_witness :
    (runCalls "app-a" twoPerSecState threeCalls).2 ≤ 4 :=
  claim_C3 twoPerSecState "app-a" ⟨"app-a", 2⟩ threeCalls 0 rfl
    (by norm_num [threeCalls, List.pairwise_cons])
    (by
      intro c hc
      have hc' : c = ((0 : ℚ), 1) := by
        simpa [threeCalls] using hc
      subst hc'
      norm_num)

/-! ## Theorems: storage -/

def sampleBatch : LogBatch := ⟨[sampleEntry], "batch-7"⟩

/-- Claim C7 (counterexample): the store handler answers 200 even though
the engine's bulk insert failed; the failure only produces an error log
line. -/
theorem claim_C7_counterexample :
    store_logs sampleBatch BulkOutcome.httpError = 200 ∧
    storageStore sampleBatch BulkOutcome.httpError = StoreLogLine.storeFailed ∧
    BulkOutcome.httpError ≠ BulkOutcome.ok2xx :=
  ⟨rfl, rfl, by decide⟩

/-- Claim C7 (amended): store_logs returns 200 unconditionally, for every
engine outcome; a failed bulk insert is only logged (an error log line is
emitted) and the caller still receives 200. -/
theorem claim_C7_amended (batch : LogBatch) (engine : BulkOutcome) :
    store_logs batch engine = 200 ∧
    (engine ≠ BulkOutcome.ok2xx →
      storageStore batch engine = StoreLogLine.storeFailed ∨
      storageStore batch engine = StoreLogLine.engineError) := by
  refine ⟨rfl, ?_⟩
  cases engine with
  | ok2xx => intro h; exact absurd rfl h
  | httpError => intro _; exact Or.inl rfl
  | transportError => intro _; exact Or.inr rfl

/-- Claim C7 witness: a transport error still yields 200, with an error
log line. -/
theorem claim_C7_witness :
    store_logs sampleBatch BulkOutcome.transportError = 200 ∧
    (storageStore sampleBatch BulkOutcome.transportError = StoreLogLine.storeFailed ∨
     storageStore sampleBatch BulkOutcome.transportError = StoreLogLine.engineError) :=
  ⟨(claim_C7_amended sampleBatch BulkOutcome.transportError).1,
   (claim_C7_amended sampleBatch BulkOutcome.transportError).2 (by decide)⟩

/-- Claim C8: the search body is the boolean AND of exactly the clauses of
the filters present (match_all when none is), targets both indices, sorts
by timestamp descending, caps size at limit with default 100; and the hit
parser skips any hit with an unrecognized level string or an unparseable
timestamp, the results being the filter-map of the parser over the hits. -/
theorem claim_C8 :
    (∀ q : SearchQuery, buildSearchBody q = specSearchBody q) ∧
    (∀ q : SearchQuery, (buildSearchBody q).indices = [HOT_INDEX, COLD_INDEX] ∧
      (buildSearchBody q).sortTimestampDesc = true ∧
      (buildSearchBody q).size = q.limit.getD 100) ∧
    (∀ q : SearchQuery, q.app_name = none → q.level = none → q.fromTs = none →
      q.toTs = none → q.attributes = none →
      (buildSearchBody q).must = [MustClause.matchAll]) ∧
    (∀ src s, (JVal.get src "level").asStr = some s → levelOfString s = none →
      parse_log_entry src = none) ∧
    (∀ src s, (JVal.get src "timestamp").asStr = some s → parseRFC3339 s = none →
      parse_log_entry src = none) ∧
    (∀ hits, searchResults hits = hits.filterMap parse_log_entry) := by
  refine ⟨?_, ?_, ?_, ?_, ?_, fun hits => rfl⟩
  · intro q
    obtain ⟨a, lv, f, t, at_, lim⟩ := q
    cases a <;> cases lv <;> cases f <;> cases t <;> cases at_ <;>
      simp [buildSearchBody, specSearchBody, List.isEmpty_iff]
  · intro q
    exact ⟨rfl, rfl, rfl⟩
  · intro q h1 h2 h3 h4 h5
    obtain ⟨a, lv, f, t, at_, lim⟩ := q
    simp only at h1 h2 h3 h4 h5
    subst h1; subst h2; subst h3; subst h4; subst h5
    simp [buildSearchBody]
  · intro src s h1 h2
    simp [parse_log_entry, h1, h2]
  · intro src s h1 h2
    cases hl : (JVal.get src "level").asStr with
    | none => simp [parse_log_entry, hl]
    | some s' =>
      cases hlv : levelOfString s' with
      | none => simp [parse_log_entry, hl, hlv]
      | some lv => simp [parse_log_entry, hl, hlv, h1, h2]

def badHit : JVal := JVal.obj [("level", JVal.str "FATAL")]

/-- Claim C8 witness: a hit whose level string is not one of the four
recognized names is skipped. -/
theorem claim_C8_witness : parse_log_entry badHit = none :=
  claim_C8.2.2.2.1 badHit "FATAL" rfl rfl

/-! ## Theorems: agent -/

/-- Claim C9: for a non-empty batch, when all attempts fail send_batch
makes exactly 3 attempts, sleeps 2 then 4 seconds between them, and spills
the batch to failed_batch_<batch_id>.json (the spill result being
discarded); on the first 2xx the batch is dropped with no further attempt
and no spill. -/
theorem claim_C9 (logs : List LogEntry) (bid : String) (result : Nat → AttemptResult)
    (diskOk : Bool) (hne : logs ≠ []) :
    (result 1 = AttemptResult.failed → result 2 = AttemptResult.failed →
      result 3 = AttemptResult.failed →
      send_batch logs bid result diskOk =
        ⟨3, [2, 4], some ("failed_batch_" ++ bid ++ ".json", ⟨logs, bid⟩), false⟩) ∧
    (∀ k, 1 ≤ k → k ≤ 3 → (∀ j, 1 ≤ j → j < k → result j = AttemptResult.failed) →
      result k = AttemptResult.ok2xx →
      (send_batch logs bid result diskOk).attempts = k ∧
      (send_batch logs bid result diskOk).spill = none ∧
      (send_batch logs bid result diskOk).delivered = true) ∧
    (∀ d : Bool, send_batch logs bid result diskOk = send_batch logs bid result d) := by
  have hne' : logs.isEmpty = false := by
    simp [List.isEmpty_iff, hne]
  refine ⟨?_, ?_, fun d => rfl⟩
  · intro h1 h2 h3
    simp [send_batch, hne', sendAttempts, h1, h2, h3, save_to_disk]
  · intro k hk1 hk3 hprev hok
    interval_cases k
    · simp [send_batch, hne', sendAttempts, hok]
    · have h1 : result 1 = AttemptResult.failed := hprev 1 (le_refl 1) (by norm_num)
      simp [send_batch, hne', sendAttempts, h1, hok]
    · have h1 : result 1 = AttemptResult.failed := hprev 1 (le_refl 1) (by norm_num)
      have h2 : result 2 = AttemptResult.failed := hprev 2 (by norm_num) (by norm_num)
      simp [send_batch, hne', sendAttempts, h1, h2, hok]

def failAll : Nat → AttemptResult := fun _ => AttemptResult.failed

/-- Claim C9 witness: a one-record batch whose three attempts all fail is
spilled to failed_batch_batch-9.json after sleeps of 2 and 4 seconds. -/
theorem claim_C9_witness :
    send_batch [sampleEntry] "batch-9" failAll true =
      ⟨3, [2, 4], some ("failed_batch_" ++ "batch-9" ++ ".json", ⟨[sampleEntry], "batch-9"⟩),
        false⟩ :=
  ((claim_C9 [sampleEntry] "batch-9" failAll true (by simp)).1) rfl rfl rfl
